import Mathlib

set_option linter.unusedVariables false

/-!
Verification of the project-space-mcp server core against its specification.

The development shallowly embeds the TypeScript sources:
  - `src/types.ts` data model (tool definitions, execution results),
  - `src/executor.ts` execution engine (`executeCommand`, `executeBash`,
    `executePython`), with the process, filesystem and spawn outcomes made
    explicit as inputs,
  - the registry (`ToolRegistry` in `server.ts`: `updateFromConfig`, `clear`,
    `getTools`, `getTool`) as an insertion-ordered association list matching
    JavaScript `Map` semantics,
  - the watcher (`ToolsWatcher.loadAndEmit`, `ToolsWatcher.poll` in
    `watcher.ts`) as explicit state transitions emitting event lists, and
  - the server wiring of watcher events to registry mutations
    (`startWatcher` in `server.ts`).

Machine integers are modelled as `Int`; timer behavior follows the documented
Node.js `setTimeout` contract (delays outside `[1, 2147483647]` are set to 1).
-/

namespace ProjectMcp

/-- JavaScript truthiness of an optional string field, as tested by
`if (executor.code)`: the field is set and the string is non-empty. -/
def truthy : Option String → Bool
  | none => false
  | some s => s != ""

/-- Interface `ToolExecutor` from `src/types.ts`. -/
structure ToolExecutor where
  type : String
  code : Option String := none
  file : Option String := none
  timeout : Option Int := none
deriving Repr, DecidableEq

/-- One property inside a tool parameter schema (`src/types.ts`). -/
structure ParamProperty where
  ptype : String
  pdescription : Option String := none
deriving Repr, DecidableEq

/-- The optional `parameters` schema of a tool definition (`src/types.ts`). -/
structure ParamSchema where
  properties : List (String × ParamProperty) := []
  required : List String := []
deriving Repr, DecidableEq

/-- Interface `ToolDefinition` from `src/types.ts`. -/
structure ToolDefinition where
  name : String
  description : String
  parameters : Option ParamSchema := none
  executor : ToolExecutor
deriving Repr, DecidableEq

/-- Interface `ToolsConfig` from `src/types.ts`: the root of `tools.json`. -/
structure ToolsConfig where
  version : String
  tools : List ToolDefinition
deriving Repr, DecidableEq

/-- Interface `ExecutionResult` from `src/types.ts`. -/
structure ExecutionResult where
  success : Bool
  stdout : String
  stderr : String
  exitCode : Int
  error : Option String := none
deriving Repr, DecidableEq

/-! ## Environment construction (`executor.ts` lines 31-44) -/

/-- A string-keyed environment record (`Record<string, string>`), absent keys
modelled as `none`. -/
abbrev EnvMap := String → Option String

/-- Assignment `env[k] = v` on a record. -/
def envSet (e : EnvMap) (k v : String) : EnvMap :=
  fun q => if q == k then some v else e q

/-- The coercion applied to a parameter value, String of the value after a
null coalesce to the empty string: an
undefined or null value becomes the empty string, a defined value its string
form (parameter values are carried already string-coerced). -/
def jsParamStr (v : Option String) : String := v.getD ""

/-- JavaScript `toUpperCase` on a key, modelled as the ASCII case mapping over
the character list. -/
def jsToUpper (s : String) : String := String.mk (s.data.map Char.toUpper)

/-- The environment built by `executeCommand`: the parent process environment,
then `PROJECT_ROOT`, `MCP_TOOLS_DIR`, `TOOL_NAME`, then for each parameter an
upper-cased `PARAM_<KEY>` entry followed by a bare same-case `<key>` entry. -/
def buildEnv (parent : EnvMap) (projectRoot mcpDir toolName : String)
    (params : List (String × Option String)) : EnvMap :=
  let base :=
    envSet (envSet (envSet parent "PROJECT_ROOT" projectRoot)
      "MCP_TOOLS_DIR" mcpDir) "TOOL_NAME" toolName
  params.foldl (fun e kv =>
    envSet (envSet e ("PARAM_" ++ jsToUpper kv.1) (jsParamStr kv.2)) kv.1 (jsParamStr kv.2)) base

/-- Spec-side description of the overlay entries for the parameters: for every
key/value pair, an upper-cased `PARAM_<KEY>` entry and a same-case bare `<key>`
entry, both string-coerced, in that order. -/
def paramPairs : List (String × Option String) → List (String × String)
  | [] => []
  | kv :: rest =>
      ("PARAM_" ++ jsToUpper kv.1, jsParamStr kv.2) :: (kv.1, jsParamStr kv.2) :: paramPairs rest

/-- Spec-side description of all overlay entries, in overlay order. -/
def overlayPairs (projectRoot mcpDir toolName : String)
    (params : List (String × Option String)) : List (String × String) :=
  ("PROJECT_ROOT", projectRoot) :: ("MCP_TOOLS_DIR", mcpDir) :: ("TOOL_NAME", toolName) ::
    paramPairs params

/-- The latest value bound to `k` in an ordered overlay list (later wins). -/
def lookupLast (l : List (String × String)) (k : String) : Option String :=
  (l.reverse.find? (fun p => p.1 == k)).map (fun p => p.2)

/-! ## Execution engine (`executor.ts`) -/

/-- Constant `DEFAULT_TIMEOUT` from `executor.ts`. -/
def DEFAULT_TIMEOUT : Int := 30000

/-- Timeout resolution `executor.timeout ?? DEFAULT_TIMEOUT`
(`executor.ts` line 29). -/
def resolveTimeout (t : Option Int) : Int := t.getD DEFAULT_TIMEOUT

/-- Node.js `setTimeout` delay semantics: a delay outside `[1, 2147483647]`
is set to `1` millisecond. -/
def nodeDelay (t : Int) : Int :=
  if t < 1 ∨ t > 2147483647 then 1 else t

/-- Whether the kill timer armed with `setTimeout(..., timeout)` fires before a
process that would otherwise close after `duration` milliseconds. -/
def timedOut (timeout : Int) (duration : Nat) : Bool :=
  nodeDelay timeout < (duration : Int)

/-- Observable behavior of the spawned child process: either the spawn fails
(`error` event, with the output captured so far), or the process closes after
`duration` milliseconds with an exit code (`null` modelled as `none`) and the
captured output streams. -/
inductive ProcBehavior where
  | spawnErr (msg : String) (stdoutAcc stderrAcc : String)
  | closes (duration : Nat) (exitCode : Option Int) (stdout stderr : String)
deriving Repr, DecidableEq

/-- Function `executeBash` from `executor.ts` (lines 91-157): the `error` and `close`
handlers, with the `killed` flag determined by the kill timer. -/
def executeBash (code : String) (env : EnvMap) (timeout : Int) (cwd : String)
    (proc : ProcBehavior) : ExecutionResult :=
  match proc with
  | .spawnErr msg so se =>
      { success := false, stdout := so, stderr := se, exitCode := 1,
        error := some ("Failed to spawn bash: " ++ msg) }
  | .closes d c so se =>
      if timedOut timeout d then
        { success := false, stdout := so, stderr := se, exitCode := c.getD 1,
          error := some ("Execution timed out after " ++ toString timeout ++ "ms") }
      else
        { success := c == some 0, stdout := so, stderr := se, exitCode := c.getD 0,
          error := none }

/-- Function `executePython` from `executor.ts` (lines 162-228). -/
def executePython (code : String) (env : EnvMap) (timeout : Int) (cwd : String)
    (proc : ProcBehavior) : ExecutionResult :=
  match proc with
  | .spawnErr msg so se =>
      { success := false, stdout := so, stderr := se, exitCode := 1,
        error := some ("Failed to spawn python3: " ++ msg) }
  | .closes d c so se =>
      if timedOut timeout d then
        { success := false, stdout := so, stderr := se, exitCode := c.getD 1,
          error := some ("Execution timed out after " ++ toString timeout ++ "ms") }
      else
        { success := c == some 0, stdout := so, stderr := se, exitCode := c.getD 0,
          error := none }

/-- The world an `executeCommand` call observes: the parent environment, the
filesystem, and the behavior of the child process for each interpreter. A
`readFileContents` value of `Except.error` models a rejected `readFile`. -/
structure ExecWorld where
  parentEnv : EnvMap
  fileExists : String → Bool
  readFileContents : String → Except String String
  bashProc : ProcBehavior
  pythonProc : ProcBehavior

/-- Path join `join(mcpDir, executor.file)` from `executor.ts` line 51. -/
def pathJoin (a b : String) : String := a ++ "/" ++ b

/-- The interpreter dispatch of `executeCommand` (`executor.ts` lines 72-85). -/
def dispatchExec (etype code : String) (env : EnvMap) (timeout : Int)
    (projectRoot : String) (w : ExecWorld) : ExecutionResult :=
  if etype == "bash" then executeBash code env timeout projectRoot w.bashProc
  else if etype == "python" then executePython code env timeout projectRoot w.pythonProc
  else
    { success := false, stdout := "", stderr := "", exitCode := 1,
      error := some ("Unknown executor type: " ++ etype) }

/-- Function `executeCommand` from `executor.ts` (lines 22-86). The returned value is
`Except.error e` exactly when the underlying promise rejects, which happens
only when `readFile` rejects on an existing script file (line 61 has no
try/catch). -/
def executeCommand (executor : ToolExecutor) (params : List (String × Option String))
    (projectRoot mcpDir toolName : String) (w : ExecWorld) :
    Except String ExecutionResult :=
  let timeout := resolveTimeout executor.timeout
  let env := buildEnv w.parentEnv projectRoot mcpDir toolName params
  if truthy executor.code then
    .ok (dispatchExec executor.type (executor.code.getD "") env timeout projectRoot w)
  else if truthy executor.file then
    let scriptPath := pathJoin mcpDir (executor.file.getD "")
    if !(w.fileExists scriptPath) then
      .ok { success := false, stdout := "", stderr := "", exitCode := 1,
            error := some ("Script file not found: " ++ scriptPath) }
    else
      match w.readFileContents scriptPath with
      | .error e => .error e
      | .ok contents =>
          .ok (dispatchExec executor.type contents env timeout projectRoot w)
  else
    .ok { success := false, stdout := "", stderr := "", exitCode := 1,
          error := some "Executor must have either \"code\" or \"file\" property" }

/-! ## Tool registry (`ToolRegistry` in `server.ts`) -/

/-- The registry mapping, modelled as an insertion-ordered association list
with JavaScript `Map` semantics. -/
abbrev RegMap := List (String × ToolDefinition)

/-- JavaScript `Map.prototype.set`: an existing key keeps its position and gets
the new value, a fresh key is appended. -/
def mapSet (m : RegMap) (k : String) (v : ToolDefinition) : RegMap :=
  if m.any (fun p => p.1 == k) then
    m.map (fun p => if p.1 == k then (k, v) else p)
  else m ++ [(k, v)]

/-- Method `ToolRegistry.getTool`: `Map.prototype.get`. -/
def mapGet (m : RegMap) (k : String) : Option ToolDefinition :=
  (m.find? (fun p => p.1 == k)).map (fun p => p.2)

/-- Method `ToolRegistry.getTools`: `Array.from(this.tools.values())`. -/
def getTools (m : RegMap) : List ToolDefinition := m.map (fun p => p.2)

/-- Events emitted by the registry (`RegistryEvents` in `src/types.ts`). -/
inductive RegEvent where
  | update (tools : List ToolDefinition)
deriving Repr, DecidableEq

/-- The change lists computed by `updateFromConfig` for logging. -/
structure RegDiff where
  added : List ToolDefinition
  removed : List String
  updated : List ToolDefinition
deriving Repr, DecidableEq

/-- Clearing and repopulating the map from a configuration
(`server.ts` lines 406-410). -/
def applyTools (tools : List ToolDefinition) : RegMap :=
  tools.foldl (fun acc t => mapSet acc t.name t) []

/-- Method `ToolRegistry.updateFromConfig` from `server.ts` lines 402-429: returns the
new mapping, the logged diff, and the emitted events. -/
def updateFromConfig (m : RegMap) (cfg : ToolsConfig) : RegMap × RegDiff × List RegEvent :=
  let oldNames := m.map (fun p => p.1)
  let newNames := cfg.tools.map (fun t => t.name)
  let m' := applyTools cfg.tools
  let diff : RegDiff :=
    { added := cfg.tools.filter (fun t => !(oldNames.contains t.name)),
      removed := oldNames.filter (fun n => !(newNames.contains n)),
      updated := cfg.tools.filter (fun t => oldNames.contains t.name) }
  (m', diff, [RegEvent.update (getTools m')])

/-- Method `ToolRegistry.clear` from `server.ts` lines 434-441: empties the mapping and
emits one `update` event only when the registry had tools. -/
def regClear (m : RegMap) : RegMap × List RegEvent :=
  if m.length > 0 then ([], [RegEvent.update []]) else ([], [])

/-! ## Watcher (`ToolsWatcher` in `watcher.ts`) -/

/-- Watcher state: `lastMtime` (0 meaning unset) and `lastConfig`. -/
structure WatcherState where
  lastMtime : Int
  lastConfig : Option ToolsConfig
deriving Repr, DecidableEq

/-- Events emitted by the watcher (`WatcherEvents` in `src/types.ts`). -/
inductive WatchEvent where
  | change (cfg : ToolsConfig)
  | delete
  | error (msg : String)
deriving Repr, DecidableEq

/-- Interface `ParseResult` from `parser.ts`. -/
structure ParseResult where
  success : Bool
  config : Option ToolsConfig := none
  errors : Option (List String) := none
deriving Repr, DecidableEq

/-- The world one watcher tick observes: whether `tools.json` exists, the
result of `stat` (`none` models a thrown `stat`), and the outcome of
`parseToolsJson` on the current contents. -/
structure WatchWorld where
  fileExists : Bool
  statMtime : Option Int
  parse : ParseResult
deriving Repr, DecidableEq

/-- The message of the `Error` built on a parse failure
(`watcher.ts` line 265): the optional error list joined with a comma
separator, an undefined list interpolating as the text undefined. -/
def parseErrorMessage (p : ParseResult) : String :=
  "Failed to parse tools.json: " ++
    (match p.errors with
     | some es => String.intercalate ", " es
     | none => "undefined")

/-- Method `ToolsWatcher.loadAndEmit` from `watcher.ts` lines 248-276, as a state
transition returning the new state and the emitted events. -/
def loadAndEmit (w : WatcherState) (world : WatchWorld) : WatcherState × List WatchEvent :=
  if !world.fileExists then (w, [])
  else
    let w1 := match world.statMtime with
      | some m => { w with lastMtime := m }
      | none => w
    if !world.parse.success then
      (w1, [WatchEvent.error (parseErrorMessage world.parse)])
    else
      match world.parse.config with
      | some cfg => ({ w1 with lastConfig := some cfg }, [WatchEvent.change cfg])
      | none => (w1, [])

/-- Method `ToolsWatcher.poll` from `watcher.ts` lines 215-243, as a state transition. -/
def poll (w : WatcherState) (world : WatchWorld) : WatcherState × List WatchEvent :=
  if !world.fileExists then
    if w.lastMtime != 0 then
      ({ lastMtime := 0, lastConfig := none }, [WatchEvent.delete])
    else (w, [])
  else
    match world.statMtime with
    | none =>
        if w.lastMtime != 0 then
          ({ lastMtime := 0, lastConfig := none }, [WatchEvent.delete])
        else (w, [])
    | some m =>
        if m != w.lastMtime then loadAndEmit { w with lastMtime := m } world
        else (w, [])

/-- The server wiring of one watcher event to the registry
(`startWatcher` in `server.ts` lines 277-287): `change` calls
`updateFromConfig`, `delete` calls `clear`, `error` only logs. -/
def applyWatchEvent (r : RegMap) (e : WatchEvent) : RegMap × List RegEvent :=
  match e with
  | .change cfg =>
      let res := updateFromConfig r cfg
      (res.1, res.2.2)
  | .delete => regClear r
  | .error _ => (r, [])

/-- Folding a list of watcher events through the registry, accumulating the
registry events emitted along the way. -/
def applyWatchEvents (r : RegMap) (es : List WatchEvent) : RegMap × List RegEvent :=
  es.foldl (fun acc e =>
    let res := applyWatchEvent acc.1 e
    (res.1, acc.2 ++ res.2)) (r, [])

/-! ## Concrete inputs used by individual claims -/

/-- A world whose bash process runs for 10 seconds and is closed with a null
exit code; the filesystem is empty. -/
def worldLongRun : ExecWorld :=
  { parentEnv := fun _ => none,
    fileExists := fun _ => false,
    readFileContents := fun _ => .error "unused",
    bashProc := .closes 10000 none "" "",
    pythonProc := .closes 10000 none "" "" }

/-- A world whose bash process exits cleanly after 29999 milliseconds. -/
def worldJustUnderDefault : ExecWorld :=
  { parentEnv := fun _ => none,
    fileExists := fun _ => false,
    readFileContents := fun _ => .error "unused",
    bashProc := .closes 29999 (some 0) "ok" "",
    pythonProc := .closes 29999 (some 0) "ok" "" }

/-- A world whose bash process would close after 30001 milliseconds. -/
def worldJustOverDefault : ExecWorld :=
  { parentEnv := fun _ => none,
    fileExists := fun _ => false,
    readFileContents := fun _ => .error "unused",
    bashProc := .closes 30001 none "" "",
    pythonProc := .closes 30001 none "" "" }

/-- An executor with an explicit `-1` timeout and inline code. -/
def execNegOne : ToolExecutor :=
  { type := "bash", code := some "sleep 10", file := none, timeout := some (-1) }

/-- An executor with the timeout field omitted and inline code. -/
def execNoTimeout : ToolExecutor :=
  { type := "bash", code := some "sleep 10", file := none, timeout := none }

/-- An executor referring to a script file, with no inline code. -/
def execFileRef : ToolExecutor :=
  { type := "bash", code := none, file := some "s.sh", timeout := none }

/-- A world where every file exists but every read fails (for example the file
was deleted or became unreadable between the existence check and the read). -/
def worldReadFails : ExecWorld :=
  { parentEnv := fun _ => none,
    fileExists := fun _ => true,
    readFileContents := fun _ => .error "EACCES: permission denied, open /proj/.mcp/s.sh",
    bashProc := .closes 0 (some 0) "" "",
    pythonProc := .closes 0 (some 0) "" "" }

/-- An executor whose kind is neither `bash` nor `python`. -/
def execUnknownKind : ToolExecutor :=
  { type := "ruby", code := some "puts 1", file := none, timeout := none }

/-- An executor carrying an empty inline code string. -/
def execEmptyCode : ToolExecutor :=
  { type := "bash", code := some "", file := none, timeout := none }

/-- A world whose bash process exits quickly and successfully with output. -/
def worldEcho : ExecWorld :=
  { parentEnv := fun _ => none,
    fileExists := fun _ => false,
    readFileContents := fun _ => .error "unused",
    bashProc := .closes 5 (some 0) "out" "",
    pythonProc := .closes 5 (some 0) "out" "" }

/-- A sample tool named `a`. -/
def toolA : ToolDefinition :=
  { name := "a", description := "first",
    executor := { type := "bash", code := some "echo a" } }

/-- A second, different definition also named `a`. -/
def toolA2 : ToolDefinition :=
  { name := "a", description := "second",
    executor := { type := "bash", code := some "echo a2" } }

/-- A sample tool named `b`. -/
def toolB : ToolDefinition :=
  { name := "b", description := "second tool",
    executor := { type := "bash", code := some "echo b" } }

/-- A valid configuration with the single tool `a`. -/
def cfgA : ToolsConfig := { version := "1.0", tools := [toolA] }

/-- A configuration declaring the same name `a` twice, around `b`. -/
def cfgDup : ToolsConfig := { version := "1.0", tools := [toolA, toolB, toolA2] }

/-- The registry content obtained from `cfgA`. -/
def regA : RegMap := applyTools cfgA.tools

/-- A watcher state that has accepted `cfgA` at mtime 5. -/
def watcherBefore : WatcherState := { lastMtime := 5, lastConfig := some cfgA }

/-- A tick observing an existing file whose contents fail validation. -/
def worldBadParse : WatchWorld :=
  { fileExists := true, statMtime := some 7,
    parse := { success := false,
               errors := some ["/tools/0/executor: must have required property type"] } }

/-- A tick observing an absent configuration file. -/
def worldAbsent : WatchWorld :=
  { fileExists := false, statMtime := none, parse := { success := false } }

/-- A tick observing a re-created configuration file that parses to `cfgA`. -/
def worldRecreated : WatchWorld :=
  { fileExists := true, statMtime := some 9,
    parse := { success := true, config := some cfgA } }

/-! ## Helper lemmas about the registry mapping -/

lemma any_key_iff (m : RegMap) (k : String) :
    m.any (fun p => p.1 == k) = true ↔ k ∈ m.map (fun p => p.1) := by
  rw [List.any_eq_true]
  constructor
  · rintro ⟨p, hp, hbeq⟩
    exact (eq_of_beq hbeq) ▸ List.mem_map_of_mem _ hp
  · intro hk
    rcases List.mem_map.mp hk with ⟨p, hp, hpk⟩
    subst hpk
    exact ⟨p, hp, beq_self_eq_true _⟩

lemma keys_mapSet (m : RegMap) (k : String) (v : ToolDefinition) :
    (mapSet m k v).map (fun p => p.1) =
      if m.any (fun p => p.1 == k) then m.map (fun p => p.1)
      else m.map (fun p => p.1) ++ [k] := by
  by_cases h : m.any (fun p => p.1 == k) = true
  · simp only [mapSet, h, if_true, List.map_map]
    refine List.map_congr_left ?_
    intro p hp
    by_cases hk : (p.1 == k) = true
    · simp only [Function.comp, hk, if_true]
      exact (eq_of_beq hk).symm
    · simp only [Function.comp, hk]
      rw [Bool.not_eq_true] at hk
      simp [hk]
  · rw [Bool.not_eq_true] at h
    simp [mapSet, h]

lemma mem_keys_mapSet (m : RegMap) (k : String) (v : ToolDefinition) (q : String) :
    q ∈ (mapSet m k v).map (fun p => p.1) ↔ q ∈ m.map (fun p => p.1) ∨ q = k := by
  rw [keys_mapSet]
  by_cases h : m.any (fun p => p.1 == k) = true
  · rw [if_pos h]
    have hk : k ∈ m.map (fun p => p.1) := (any_key_iff m k).mp h
    constructor
    · exact Or.inl
    · rintro (hq | rfl)
      · exact hq
      · exact hk
  · rw [Bool.not_eq_true] at h
    rw [if_neg (by simp [h])]
    simp [List.mem_append]

lemma mapGet_mapSet (m : RegMap) (k : String) (v : ToolDefinition) (q : String) :
    mapGet (mapSet m k v) q = if q = k then some v else mapGet m q := by
  by_cases h : m.any (fun p => p.1 == k) = true
  · simp only [mapSet, h, if_true]
    unfold mapGet
    rw [List.find?_map]
    by_cases hq : q = k
    · subst hq
      have hpred : ((fun p : String × ToolDefinition => p.1 == q) ∘
          (fun p => if p.1 == q then (q, v) else p)) = fun p => p.1 == q := by
        funext p
        by_cases hk : (p.1 == q) = true
        · simp [Function.comp, hk]
        · rw [Bool.not_eq_true] at hk
          simp [Function.comp, hk]
      rw [hpred]
      rcases ha : m.find? (fun p => p.1 == q) with _ | p0
      · rw [List.find?_eq_none] at ha
        rcases List.any_eq_true.mp h with ⟨p, hp, hbeq⟩
        exact absurd hbeq (ha p hp)
      · have hp0 : (p0.1 == q) = true := by
          have hx := List.find?_some ha
          simpa using hx
        simp [ha, hp0]
        rw [if_pos (eq_of_beq hp0)]
    · have hpred : ((fun p : String × ToolDefinition => p.1 == q) ∘
          (fun p => if p.1 == k then (k, v) else p)) = fun p => p.1 == q := by
        funext p
        by_cases hk : (p.1 == k) = true
        · have hpk : p.1 = k := eq_of_beq hk
          simp [Function.comp, hk, hpk]
        · rw [Bool.not_eq_true] at hk
          simp [Function.comp, hk]
      rw [hpred, if_neg hq]
      rcases ha : m.find? (fun p => p.1 == q) with _ | p0
      · simp [mapGet, ha]
      · have hp0 : (p0.1 == q) = true := by
          have hx := List.find?_some ha
          simpa using hx
        have hne : (p0.1 == k) = false := by
          apply beq_eq_false_iff_ne.mpr
          intro hc
          exact hq ((eq_of_beq hp0).symm.trans hc)
        simp [mapGet, ha, hne]
        rw [if_neg (beq_eq_false_iff_ne.mp hne)]
  · rw [Bool.not_eq_true] at h
    simp only [mapSet, h, Bool.false_eq_true, if_false]
    unfold mapGet
    rw [List.find?_append]
    by_cases hq : q = k
    · subst hq
      have hnone : m.find? (fun p => p.1 == q) = none := by
        rw [List.find?_eq_none]
        intro p hp hbeq
        have hx : m.any (fun p => p.1 == q) = true := List.any_eq_true.mpr ⟨p, hp, hbeq⟩
        rw [h] at hx
        exact absurd hx (by simp)
      simp [hnone, Option.or, List.find?, beq_self_eq_true]
    · have hkq : ((k, v).1 == q) = false := by
        apply beq_eq_false_iff_ne.mpr
        intro hc
        exact hq hc.symm
      rcases ha : m.find? (fun p => p.1 == q) with _ | p0
      · simp [mapGet, ha, Option.or, List.find?, hkq, if_neg hq]
      · simp [mapGet, ha, Option.or, if_neg hq]

lemma applyTools_concat (ts : List ToolDefinition) (t : ToolDefinition) :
    applyTools (ts ++ [t]) = mapSet (applyTools ts) t.name t := by
  simp [applyTools, List.foldl_append]

lemma mapGet_applyTools (ts : List ToolDefinition) (n : String) :
    mapGet (applyTools ts) n = (ts.filter (fun t => t.name == n)).getLast? := by
  induction ts using List.reverseRecOn with
  | nil => rfl
  | append_singleton ts t ih =>
    rw [applyTools_concat, mapGet_mapSet, List.filter_append]
    by_cases ht : (t.name == n) = true
    · have hn : n = t.name := (eq_of_beq ht).symm
      have hfil : List.filter (fun x => x.name == n) [t] = [t] := by
        simp [List.filter_cons, ht]
      rw [hfil, List.getLast?_concat, if_pos hn]
    · have hn : n ≠ t.name := by
        intro hc
        rw [hc] at ht
        exact ht (beq_self_eq_true _)
      rw [Bool.not_eq_true] at ht
      have hfil : List.filter (fun x => x.name == n) [t] = [] := by
        simp [List.filter_cons, ht]
      rw [hfil, List.append_nil, if_neg hn, ih]

lemma keys_applyTools_nodup (ts : List ToolDefinition) :
    ((applyTools ts).map (fun p => p.1)).Nodup := by
  induction ts using List.reverseRecOn with
  | nil => simp [applyTools]
  | append_singleton ts t ih =>
    rw [applyTools_concat, keys_mapSet]
    by_cases h : (applyTools ts).any (fun p => p.1 == t.name) = true
    · simp [h, ih]
    · rw [Bool.not_eq_true] at h
      rw [if_neg (by simp [h])]
      rw [List.nodup_append]
      refine ⟨ih, List.nodup_singleton _, ?_⟩
      intro a ha hb
      rw [List.mem_singleton] at hb
      subst hb
      exact absurd ((any_key_iff _ _).mpr ha) (by simp [h])

lemma mem_keys_applyTools (ts : List ToolDefinition) (n : String) :
    n ∈ (applyTools ts).map (fun p => p.1) ↔ n ∈ ts.map (fun t => t.name) := by
  induction ts using List.reverseRecOn with
  | nil => simp [applyTools]
  | append_singleton ts t ih =>
    rw [applyTools_concat, mem_keys_mapSet, ih]
    simp [List.mem_append]

lemma length_applyTools (ts : List ToolDefinition) :
    (applyTools ts).length = (ts.map (fun t => t.name)).toFinset.card := by
  have hkeys : ((applyTools ts).map (fun p => p.1)).toFinset =
      (ts.map (fun t => t.name)).toFinset := by
    ext a
    simp only [List.mem_toFinset]
    exact mem_keys_applyTools ts a
  calc (applyTools ts).length
      = ((applyTools ts).map (fun p => p.1)).length := (List.length_map _ _).symm
    _ = ((applyTools ts).map (fun p => p.1)).toFinset.card :=
        (List.toFinset_card_of_nodup (keys_applyTools_nodup ts)).symm
    _ = (ts.map (fun t => t.name)).toFinset.card := by rw [hkeys]

/-! ## Helper lemmas about environment construction -/

lemma paramFold_eq (params : List (String × Option String)) :
    ∀ e : EnvMap,
      params.foldl (fun e kv =>
        envSet (envSet e ("PARAM_" ++ jsToUpper kv.1) (jsParamStr kv.2)) kv.1 (jsParamStr kv.2)) e =
      (paramPairs params).foldl (fun e kv => envSet e kv.1 kv.2) e := by
  induction params with
  | nil => intro e; rfl
  | cons kv ps ih =>
    intro e
    simp only [List.foldl_cons, paramPairs]
    exact ih _

lemma buildEnv_eq_foldl (parent : EnvMap) (pr dir tn : String)
    (params : List (String × Option String)) :
    buildEnv parent pr dir tn params =
      (overlayPairs pr dir tn params).foldl (fun e kv => envSet e kv.1 kv.2) parent := by
  unfold buildEnv overlayPairs
  simp only [List.foldl_cons]
  exact paramFold_eq params _

lemma foldl_envSet_lookup (l : List (String × String)) :
    ∀ (parent : EnvMap) (k : String),
      (l.foldl (fun e kv => envSet e kv.1 kv.2) parent) k =
        match lookupLast l k with
        | some v => some v
        | none => parent k := by
  induction l with
  | nil =>
    intro parent k
    simp [lookupLast]
  | cons a l ih =>
    intro parent k
    simp only [List.foldl_cons]
    rw [ih]
    rcases hf : List.find? (fun p => p.1 == k) l.reverse with _ | p
    · have hl : lookupLast l k = none := by simp [lookupLast, hf]
      rw [hl]
      by_cases ha : (a.1 == k) = true
      · have hal : lookupLast (a :: l) k = some a.2 := by
          simp [lookupLast, List.find?_append, hf, List.find?, ha]
        rw [hal]
        have hk : (k == a.1) = true := by
          rw [beq_iff_eq] at ha ⊢
          exact ha.symm
        simp [envSet, hk]
      · have ha' : (a.1 == k) = false := by
          rw [Bool.not_eq_true] at ha
          exact ha
        have hal : lookupLast (a :: l) k = none := by
          simp [lookupLast, List.find?_append, hf, List.find?, ha']
        rw [hal]
        have hk : (k == a.1) = false := by
          apply beq_eq_false_iff_ne.mpr
          intro hc
          exact absurd (beq_iff_eq.mpr hc.symm) (by rw [ha']; simp)
        simp [envSet, hk]
    · have hl : lookupLast l k = some p.2 := by simp [lookupLast, hf]
      have hal : lookupLast (a :: l) k = some p.2 := by
        simp [lookupLast, List.find?_append, hf, Option.or]
      rw [hl, hal]

/-! ## Theorems -/

/-- C1: the execution engine resolves the effective timeout to the explicit
`timeoutMs` when specified and to the default 30000 ms when omitted, and a
non-negative value acts as a wall-clock limit in milliseconds (a process
closing just under the default limit completes normally, one just over it is
reported timed out). However, an explicit `-1` does not disable the timeout:
the code passes `-1` straight to `setTimeout`, whose delay is set to 1 ms, so
a 10-second run under `timeout: -1` is killed and reported as
`Execution timed out after -1ms` instead of running without a timeout. -/
theorem C1_timeout_resolution :
    resolveTimeout (some 5000) = 5000 ∧
    resolveTimeout none = 30000 ∧
    executeCommand execNoTimeout [] "/proj" "/proj/.mcp" "t" worldJustUnderDefault =
      .ok { success := true, stdout := "ok", stderr := "", exitCode := 0, error := none } ∧
    executeCommand execNoTimeout [] "/proj" "/proj/.mcp" "t" worldJustOverDefault =
      .ok { success := false, stdout := "", stderr := "", exitCode := 1,
            error := some "Execution timed out after 30000ms" } ∧
    nodeDelay (-1) = 1 ∧
    executeCommand execNegOne [] "/proj" "/proj/.mcp" "t" worldLongRun =
      .ok { success := false, stdout := "", stderr := "", exitCode := 1,
            error := some "Execution timed out after -1ms" } := by
  refine ⟨rfl, rfl, ?_, ?_, rfl, ?_⟩ <;> rfl

/-- C9: `clear()` on an empty registry is a no-op that emits nothing, and on a
non-empty registry it empties the mapping and emits exactly one `update`
notification carrying the empty tool list. -/
theorem C9_clear_no_spurious_diff (m : RegMap) :
    regClear m = ([], if m.isEmpty then ([] : List RegEvent) else [RegEvent.update []]) := by
  cases m with
  | nil => simp [regClear]
  | cons a l => simp [regClear]

/-- C6: a completed run succeeds if and only if the process exited with code 0
and was not timed out; an observed exit code is surfaced as-is; a timed-out run
is unsuccessful with a diagnostic stating the configured timeout, whatever exit
code is eventually observed; a spawn failure is unsuccessful with a diagnostic
describing the failure and the non-zero sentinel exit code 1. Both
interpreters behave identically. -/
theorem C6_completion_normalization (code cwd : String) (env : EnvMap) (timeout : Int)
    (d : Nat) (c : Option Int) (so se msg : String) :
    ((executeBash code env timeout cwd (.closes d c so se)).success = true ↔
      (c = some 0 ∧ timedOut timeout d = false)) ∧
    (∀ ec : Int, c = some ec →
      (executeBash code env timeout cwd (.closes d c so se)).exitCode = ec) ∧
    (timedOut timeout d = true →
      executeBash code env timeout cwd (.closes d c so se) =
        { success := false, stdout := so, stderr := se, exitCode := c.getD 1,
          error := some ("Execution timed out after " ++ toString timeout ++ "ms") }) ∧
    (executeBash code env timeout cwd (.spawnErr msg so se) =
      { success := false, stdout := so, stderr := se, exitCode := 1,
        error := some ("Failed to spawn bash: " ++ msg) }) ∧
    ((executePython code env timeout cwd (.closes d c so se)).success = true ↔
      (c = some 0 ∧ timedOut timeout d = false)) ∧
    (∀ ec : Int, c = some ec →
      (executePython code env timeout cwd (.closes d c so se)).exitCode = ec) ∧
    (timedOut timeout d = true →
      executePython code env timeout cwd (.closes d c so se) =
        { success := false, stdout := so, stderr := se, exitCode := c.getD 1,
          error := some ("Execution timed out after " ++ toString timeout ++ "ms") }) ∧
    (executePython code env timeout cwd (.spawnErr msg so se) =
      { success := false, stdout := so, stderr := se, exitCode := 1,
        error := some ("Failed to spawn python3: " ++ msg) }) := by
  by_cases h : timedOut timeout d = true
  · refine ⟨?_, ?_, ?_, rfl, ?_, ?_, ?_, rfl⟩ <;>
      simp [executeBash, executePython, h]
    · rintro ec rfl; rfl
    · rintro ec rfl; rfl
  · rw [Bool.not_eq_true] at h
    refine ⟨?_, ?_, ?_, rfl, ?_, ?_, ?_, rfl⟩ <;>
      simp [executeBash, executePython, h]
    · rintro ec rfl; rfl
    · rintro ec rfl; rfl

/-- C6 witness: at concrete inputs, a run with timeout 100 that would close
after 10000 ms is reported timed out with the diagnostic naming 100 ms, and a
quick run exiting with code 7 surfaces exit code 7. -/
theorem C6_completion_normalization_witness :
    executeBash "x" (fun _ => none) 100 "/p" (.closes 10000 none "o" "e") =
      { success := false, stdout := "o", stderr := "e", exitCode := 1,
        error := some "Execution timed out after 100ms" } ∧
    (executeBash "x" (fun _ => none) 100 "/p" (.closes 5 (some 7) "o" "e")).exitCode = 7 :=
  ⟨(C6_completion_normalization "x" "/p" (fun _ => none) 100 10000 none "o" "e" "m").2.2.1
      (by decide),
   (C6_completion_normalization "x" "/p" (fun _ => none) 100 5 (some 7) "o" "e" "m").2.1
      7 rfl⟩

/-- C2 counterexample: the claim that the run never rejects is false. With a
script file that exists but whose read fails, `executeCommand` propagates the
read failure as a rejection instead of resolving to an `ExecutionResult`. -/
theorem C2_counterexample_read_failure_rejects :
    executeCommand execFileRef [] "/proj" "/proj/.mcp" "t" worldReadFails =
      .error "EACCES: permission denied, open /proj/.mcp/s.sh" := rfl

/-- C2 amended: every enumerated failure mode (missing script file, neither
inline code nor file reference, unrecognized executor kind whose diagnostic
names the kind, spawn failure, timeout) resolves to an `ExecutionResult` with
`success = false` and a diagnostic, and the run never rejects provided reading
the script file does not fail; only a read failure on an existing script file
propagates as a rejection. -/
theorem C2_failure_modes_normalize (ex : ToolExecutor)
    (params : List (String × Option String)) (pr dir tn : String) (w : ExecWorld) :
    ((∀ p, (w.readFileContents p).isOk = true) →
      (executeCommand ex params pr dir tn w).isOk = true) ∧
    (truthy ex.code = false → truthy ex.file = true →
      w.fileExists (pathJoin dir (ex.file.getD "")) = false →
      executeCommand ex params pr dir tn w =
        .ok { success := false, stdout := "", stderr := "", exitCode := 1,
              error := some ("Script file not found: " ++ pathJoin dir (ex.file.getD "")) }) ∧
    (truthy ex.code = false → truthy ex.file = false →
      executeCommand ex params pr dir tn w =
        .ok { success := false, stdout := "", stderr := "", exitCode := 1,
              error := some "Executor must have either \"code\" or \"file\" property" }) ∧
    (truthy ex.code = true → ex.type ≠ "bash" → ex.type ≠ "python" →
      executeCommand ex params pr dir tn w =
        .ok { success := false, stdout := "", stderr := "", exitCode := 1,
              error := some ("Unknown executor type: " ++ ex.type) }) ∧
    (∀ msg so se, truthy ex.code = true → ex.type = "bash" →
      w.bashProc = .spawnErr msg so se →
      executeCommand ex params pr dir tn w =
        .ok { success := false, stdout := so, stderr := se, exitCode := 1,
              error := some ("Failed to spawn bash: " ++ msg) }) ∧
    (∀ d c so se, truthy ex.code = true → ex.type = "bash" →
      w.bashProc = .closes d c so se →
      timedOut (resolveTimeout ex.timeout) d = true →
      executeCommand ex params pr dir tn w =
        .ok { success := false, stdout := so, stderr := se, exitCode := c.getD 1,
              error := some ("Execution timed out after " ++
                toString (resolveTimeout ex.timeout) ++ "ms") }) := by
  refine ⟨?_, ?_, ?_, ?_, ?_, ?_⟩
  · intro hread
    by_cases hc : truthy ex.code = true
    · simp [executeCommand, hc, Except.isOk, Except.toBool]
    · rw [Bool.not_eq_true] at hc
      by_cases he : w.fileExists (pathJoin dir (ex.file.getD "")) = true
      · by_cases hf : truthy ex.file = true
        · rcases hr : w.readFileContents (pathJoin dir (ex.file.getD "")) with e | contents
          · have := hread (pathJoin dir (ex.file.getD ""))
            rw [hr] at this
            simp [Except.isOk, Except.toBool] at this
          · simp [executeCommand, hc, hf, he, hr, Except.isOk, Except.toBool]
        · rw [Bool.not_eq_true] at hf
          simp [executeCommand, hc, hf, Except.isOk, Except.toBool]
      · rw [Bool.not_eq_true] at he
        by_cases hf : truthy ex.file = true
        · simp [executeCommand, hc, hf, he, Except.isOk, Except.toBool]
        · rw [Bool.not_eq_true] at hf
          simp [executeCommand, hc, hf, Except.isOk, Except.toBool]
  · intro hc hf he
    simp [executeCommand, hc, hf, he]
  · intro hc hf
    simp [executeCommand, hc, hf]
  · intro hc hb hp
    have hb' : (ex.type == "bash") = false := beq_eq_false_iff_ne.mpr hb
    have hp' : (ex.type == "python") = false := beq_eq_false_iff_ne.mpr hp
    simp [executeCommand, hc, dispatchExec, hb', hp']
  · intro msg so se hc hb hproc
    simp [executeCommand, hc, dispatchExec, hb, executeBash, hproc]
  · intro d c so se hc hb hproc htime
    simp [executeCommand, hc, dispatchExec, hb, executeBash, hproc, htime]

/-- C2 witness: at concrete inputs, invoking an executor with the unrecognized
kind `ruby` resolves (does not reject) to an unsuccessful result whose
diagnostic names the offending kind, and a missing script file resolves to the
normalized not-found result. -/
theorem C2_failure_modes_normalize_witness :
    executeCommand execUnknownKind [] "/proj" "/proj/.mcp" "t" worldLongRun =
      .ok { success := false, stdout := "", stderr := "", exitCode := 1,
            error := some "Unknown executor type: ruby" } ∧
    executeCommand execFileRef [] "/proj" "/proj/.mcp" "t" worldLongRun =
      .ok { success := false, stdout := "", stderr := "", exitCode := 1,
            error := some "Script file not found: /proj/.mcp/s.sh" } :=
  ⟨(C2_failure_modes_normalize execUnknownKind [] "/proj" "/proj/.mcp" "t"
      worldLongRun).2.2.2.1 rfl (by decide) (by decide),
   (C2_failure_modes_normalize execFileRef [] "/proj" "/proj/.mcp" "t"
      worldLongRun).2.1 rfl rfl rfl⟩

/-- C8 counterexample: the claim that inline code, when present, is used
verbatim is false for the empty inline string. The executor carries
`code = some ""` (the field is present), yet the run returns the
missing-source diagnostic instead of executing the empty program, which would
have succeeded in this world. -/
theorem C8_counterexample_empty_inline_code :
    execEmptyCode.code.isSome = true ∧
    executeCommand execEmptyCode [] "/proj" "/proj/.mcp" "t" worldEcho =
      .ok { success := false, stdout := "", stderr := "", exitCode := 1,
            error := some "Executor must have either \"code\" or \"file\" property" } ∧
    executeBash "" (buildEnv worldEcho.parentEnv "/proj" "/proj/.mcp" "t" [])
        (resolveTimeout execEmptyCode.timeout) "/proj" worldEcho.bashProc =
      { success := true, stdout := "out", stderr := "", exitCode := 0, error := none } :=
  ⟨rfl, rfl, rfl⟩

/-- C8 amended: source resolution uses non-empty inline code verbatim; when
inline code is absent or empty and a non-empty file reference is present, the
file is resolved relative to the config directory, a missing file yields the
normalized not-found result (not a thrown error), and otherwise the full file
contents become the code to run. An empty inline code string is treated as
absent (JavaScript truthiness), falling through to file resolution. -/
theorem C8_source_resolution (ex : ToolExecutor)
    (params : List (String × Option String)) (pr dir tn : String) (w : ExecWorld) :
    (∀ cstr : String, ex.code = some cstr → cstr ≠ "" →
      executeCommand ex params pr dir tn w =
        .ok (dispatchExec ex.type cstr (buildEnv w.parentEnv pr dir tn params)
              (resolveTimeout ex.timeout) pr w)) ∧
    (∀ f : String, truthy ex.code = false → ex.file = some f → f ≠ "" →
      ((w.fileExists (pathJoin dir f) = false →
        executeCommand ex params pr dir tn w =
          .ok { success := false, stdout := "", stderr := "", exitCode := 1,
                error := some ("Script file not found: " ++ pathJoin dir f) }) ∧
       (∀ contents, w.fileExists (pathJoin dir f) = true →
        w.readFileContents (pathJoin dir f) = .ok contents →
        executeCommand ex params pr dir tn w =
          .ok (dispatchExec ex.type contents (buildEnv w.parentEnv pr dir tn params)
                (resolveTimeout ex.timeout) pr w)))) := by
  constructor
  · intro cstr hcode hne
    have hc : truthy (some cstr) = true := by simp [truthy, hne]
    simp [executeCommand, hcode, hc]
  · intro f hc hfile hne
    have hf : truthy (some f) = true := by simp [truthy, hne]
    constructor
    · intro he
      simp [executeCommand, hc, hfile, hf, he]
    · intro contents he hr
      simp [executeCommand, hc, hfile, hf, he, hr]

/-- C8 witness: at concrete inputs, non-empty inline code is dispatched
verbatim, and a missing referenced script yields the not-found result. -/
theorem C8_source_resolution_witness :
    executeCommand execNoTimeout [] "/proj" "/proj/.mcp" "t" worldEcho =
      .ok (dispatchExec "bash" "sleep 10"
            (buildEnv worldEcho.parentEnv "/proj" "/proj/.mcp" "t" [])
            30000 "/proj" worldEcho) ∧
    executeCommand execFileRef [] "/proj" "/proj/.mcp" "t" worldEcho =
      .ok { success := false, stdout := "", stderr := "", exitCode := 1,
            error := some "Script file not found: /proj/.mcp/s.sh" } :=
  ⟨(C8_source_resolution execNoTimeout [] "/proj" "/proj/.mcp" "t" worldEcho).1
      "sleep 10" rfl (by decide),
   ((C8_source_resolution execFileRef [] "/proj" "/proj/.mcp" "t" worldEcho).2
      "s.sh" rfl rfl (by decide)).1 rfl⟩

/-- C3: a reload attempt whose load or validation fails emits exactly one
error notification carrying the error list, leaves the accepted snapshot
(`lastConfig`) unchanged, and leaves the registry mapping unchanged with no
registry notification (last-good-config-wins). -/
theorem C3_failed_reload_preserves (w : WatcherState) (r : RegMap) (world : WatchWorld)
    (hfe : world.fileExists = true) (hfail : world.parse.success = false) :
    (loadAndEmit w world).1.lastConfig = w.lastConfig ∧
    (loadAndEmit w world).2 = [WatchEvent.error (parseErrorMessage world.parse)] ∧
    (applyWatchEvents r (loadAndEmit w world).2).1 = r ∧
    (applyWatchEvents r (loadAndEmit w world).2).2 = [] := by
  have h2 : (loadAndEmit w world).2 = [WatchEvent.error (parseErrorMessage world.parse)] := by
    cases hs : world.statMtime <;> simp [loadAndEmit, hfe, hfail, hs]
  have h1 : (loadAndEmit w world).1.lastConfig = w.lastConfig := by
    cases hs : world.statMtime <;> simp [loadAndEmit, hfe, hfail, hs]
  refine ⟨h1, h2, ?_, ?_⟩ <;> rw [h2] <;>
    simp [applyWatchEvents, applyWatchEvent]

/-- C3 witness: a concrete failed reload over a registry holding `cfgA` keeps
the snapshot and the registry and emits the error event with the error list. -/
theorem C3_failed_reload_preserves_witness :
    (loadAndEmit watcherBefore worldBadParse).1.lastConfig = watcherBefore.lastConfig ∧
    (loadAndEmit watcherBefore worldBadParse).2 =
      [WatchEvent.error (parseErrorMessage worldBadParse.parse)] ∧
    (applyWatchEvents regA (loadAndEmit watcherBefore worldBadParse).2).1 = regA ∧
    (applyWatchEvents regA (loadAndEmit watcherBefore worldBadParse).2).2 = [] :=
  C3_failed_reload_preserves watcherBefore regA worldBadParse rfl rfl

/-- C5: a poll tick that finds the configuration file absent after it had been
seen fires `delete` exactly once and the registry transitions to empty;
further absent ticks emit nothing and change nothing; a later re-creation of
the file restarts a normal load-and-apply cycle emitting `change` with the
loaded configuration. -/
theorem C5_delete_exactly_once (w : WatcherState) (r : RegMap) (wa : WatchWorld)
    (habs : wa.fileExists = false) :
    (w.lastMtime ≠ 0 →
      poll w wa = ({ lastMtime := 0, lastConfig := none }, [WatchEvent.delete]) ∧
      (applyWatchEvents r (poll w wa).2).1 = []) ∧
    (poll { lastMtime := 0, lastConfig := none } wa =
      ({ lastMtime := 0, lastConfig := none }, [])) ∧
    (∀ (wb : WatchWorld) (m : Int) (cfg : ToolsConfig),
      wb.fileExists = true → wb.statMtime = some m → m ≠ 0 →
      wb.parse.success = true → wb.parse.config = some cfg →
      poll { lastMtime := 0, lastConfig := none } wb =
        ({ lastMtime := m, lastConfig := some cfg }, [WatchEvent.change cfg])) := by
  refine ⟨?_, ?_, ?_⟩
  · intro hm
    have hm' : (w.lastMtime != 0) = true := by simpa [bne_iff_ne] using hm
    have hclear : (regClear r).1 = [] := by
      unfold regClear; split <;> rfl
    constructor
    · simp [poll, habs, hm']
    · simp [poll, habs, hm', applyWatchEvents, applyWatchEvent, hclear]
  · simp [poll, habs]
  · intro wb m cfg hfe hs hm hps hcfg
    have hm' : (m != (0 : Int)) = true := by simpa [bne_iff_ne] using hm
    simp [poll, hfe, hs, hm', loadAndEmit, hps, hcfg]

/-- C5 witness: a concrete deletion tick from an accepted state empties the
registry and emits one `delete`; a second absent tick emits nothing; a
re-creation tick loads `cfgA` again. -/
theorem C5_delete_exactly_once_witness :
    poll watcherBefore worldAbsent =
      ({ lastMtime := 0, lastConfig := none }, [WatchEvent.delete]) ∧
    (applyWatchEvents regA (poll watcherBefore worldAbsent).2).1 = [] ∧
    poll { lastMtime := 0, lastConfig := none } worldAbsent =
      ({ lastMtime := 0, lastConfig := none }, []) ∧
    poll { lastMtime := 0, lastConfig := none } worldRecreated =
      ({ lastMtime := 9, lastConfig := some cfgA }, [WatchEvent.change cfgA]) :=
  ⟨((C5_delete_exactly_once watcherBefore regA worldAbsent rfl).1 (by decide)).1,
   ((C5_delete_exactly_once watcherBefore regA worldAbsent rfl).1 (by decide)).2,
   (C5_delete_exactly_once watcherBefore regA worldAbsent rfl).2.1,
   (C5_delete_exactly_once watcherBefore regA worldAbsent rfl).2.2
      worldRecreated 9 cfgA rfl rfl (by decide) rfl rfl⟩

/-- C4 counterexample: the claim that a second `replaceAll` with the same
snapshot emits no diff and no update notification is false. Applying `cfgA`
twice, the second `updateFromConfig` reports the tool as updated in its diff
and emits an `update` notification. -/
theorem C4_counterexample_identical_reload_emits :
    (updateFromConfig (updateFromConfig [] cfgA).1 cfgA).2.1.updated ≠ [] ∧
    (updateFromConfig (updateFromConfig [] cfgA).1 cfgA).2.2 ≠ [] := by
  constructor <;> decide

/-- C4 amended: reloading an identical snapshot leaves the mapping unchanged
and produces an empty added and removed diff, but the diff reports every tool
of the snapshot as updated (the code treats any retained name as updated
without comparing content) and one `update` notification is always emitted. -/
theorem C4_identical_reload_amended (cfg : ToolsConfig) (r0 : RegMap) :
    (updateFromConfig (updateFromConfig r0 cfg).1 cfg).1 = (updateFromConfig r0 cfg).1 ∧
    (updateFromConfig (updateFromConfig r0 cfg).1 cfg).2.1.added = [] ∧
    (updateFromConfig (updateFromConfig r0 cfg).1 cfg).2.1.removed = [] ∧
    (updateFromConfig (updateFromConfig r0 cfg).1 cfg).2.1.updated = cfg.tools ∧
    (updateFromConfig (updateFromConfig r0 cfg).1 cfg).2.2 =
      [RegEvent.update (getTools (updateFromConfig r0 cfg).1)] := by
  have hcontains : ∀ (l : List String) (a : String), a ∈ l → l.contains a = true := by
    intro l a h
    rw [List.contains_eq_any_beq]
    exact List.any_eq_true.mpr ⟨a, h, beq_self_eq_true a⟩
  have hkeys : ∀ t ∈ cfg.tools,
      ((applyTools cfg.tools).map (fun p => p.1)).contains t.name = true := by
    intro t ht
    exact hcontains _ _ ((mem_keys_applyTools _ _).mpr (List.mem_map_of_mem _ ht))
  have hadded : cfg.tools.filter
      (fun t => !(((applyTools cfg.tools).map (fun p => p.1)).contains t.name)) = [] := by
    apply List.filter_eq_nil_iff.mpr
    intro t ht
    rw [hkeys t ht]
    simp
  have hremoved : ((applyTools cfg.tools).map (fun p => p.1)).filter
      (fun n => !((cfg.tools.map (fun t => t.name)).contains n)) = [] := by
    apply List.filter_eq_nil_iff.mpr
    intro n hn
    rw [hcontains _ _ ((mem_keys_applyTools _ _).mp hn)]
    simp
  have hupdated : cfg.tools.filter
      (fun t => ((applyTools cfg.tools).map (fun p => p.1)).contains t.name) = cfg.tools := by
    apply List.filter_eq_self.mpr
    intro t ht
    exact hkeys t ht
  exact ⟨rfl, hadded, hremoved, hupdated, rfl⟩

/-- C10: applying a configuration snapshot to the registry is last-write-wins
per name: lookup of any name returns the definition appearing latest in the
declared order, the resulting mapping has one entry per distinct name (keys
are duplicate-free and are exactly the declared names), its size never exceeds
the snapshot count, and with duplicated names it is strictly smaller. -/
theorem C10_duplicate_names_last_write_wins (ts : List ToolDefinition) :
    (∀ n : String, mapGet (applyTools ts) n = (ts.filter (fun t => t.name == n)).getLast?) ∧
    ((applyTools ts).map (fun p => p.1)).Nodup ∧
    (∀ n : String, n ∈ (applyTools ts).map (fun p => p.1) ↔ n ∈ ts.map (fun t => t.name)) ∧
    (applyTools ts).length ≤ ts.length ∧
    (¬ (ts.map (fun t => t.name)).Nodup → (applyTools ts).length < ts.length) := by
  refine ⟨fun n => mapGet_applyTools ts n, keys_applyTools_nodup ts,
    fun n => mem_keys_applyTools ts n, ?_, ?_⟩
  · rw [length_applyTools]
    calc (ts.map (fun t => t.name)).toFinset.card
        ≤ (ts.map (fun t => t.name)).length := List.toFinset_card_le _
      _ = ts.length := List.length_map _ _
  · intro hdup
    rw [length_applyTools, List.card_toFinset]
    have hsub := List.dedup_sublist (ts.map (fun t => t.name))
    have hne : (ts.map (fun t => t.name)).dedup.length ≠
        (ts.map (fun t => t.name)).length := by
      intro heq
      have heq' := hsub.eq_of_length heq
      exact hdup (heq' ▸ List.nodup_dedup _)
    calc (ts.map (fun t => t.name)).dedup.length
        < (ts.map (fun t => t.name)).length := lt_of_le_of_ne hsub.length_le hne
      _ = ts.length := List.length_map _ _

/-- C10 witness: the snapshot `cfgDup` declares `a`, `b`, `a` with two
different definitions of `a`; after applying it, lookup of `a` returns the
later definition and the registry is strictly smaller than the snapshot. -/
theorem C10_duplicate_names_last_write_wins_witness :
    ¬ ((cfgDup.tools.map (fun t => t.name)).Nodup) ∧
    mapGet (applyTools cfgDup.tools) "a" = some toolA2 ∧
    (applyTools cfgDup.tools).length < cfgDup.tools.length :=
  ⟨by decide,
   ((C10_duplicate_names_last_write_wins cfgDup.tools).1 "a").trans (by decide),
   (C10_duplicate_names_last_write_wins cfgDup.tools).2.2.2.2 (by decide)⟩

/-- C7: the child environment is the parent environment overlaid, in order,
with `PROJECT_ROOT`, `MCP_TOOLS_DIR`, `TOOL_NAME`, and for every parameter an
upper-cased `PARAM_<KEY>` entry and a same-case bare `<key>` entry, both the
string coercion of the value with absent values coerced to the empty string;
later overlays win on key collision (the built environment looks keys up in
the latest overlay entry, falling back to the parent). Concretely, a parameter
`name = Ada` is visible as both `name` and `PARAM_NAME`. -/
theorem C7_child_environment :
    (∀ (parent : EnvMap) (pr dir tn : String)
       (params : List (String × Option String)) (k : String),
       buildEnv parent pr dir tn params k =
         match lookupLast (overlayPairs pr dir tn params) k with
         | some v => some v
         | none => parent k) ∧
    (buildEnv (fun _ => none) "/proj" "/proj/.mcp" "t" [("name", some "Ada")] "name" =
       some "Ada" ∧
     buildEnv (fun _ => none) "/proj" "/proj/.mcp" "t" [("name", some "Ada")] "PARAM_NAME" =
       some "Ada") ∧
    jsParamStr none = "" := by
  refine ⟨?_, ⟨by decide, by decide⟩, rfl⟩
  intro parent pr dir tn params k
  rw [buildEnv_eq_foldl]
  exact foldl_envSet_lookup _ parent k

end ProjectMcp
